import Mathlib

/-!
Shallow embedding of `src/wrap_my_spotify_v2.py` (the aggregation-and-filter
core: `parse_json`, `filter_songs`, `sort`).

Modelling conventions:
* Python `datetime` values are encoded as natural numbers by `encodeDT`,
  a strictly monotone encoding of the lexicographic field order
  (year, month, day, hour, minute, second) on valid dates, so `<`/`>`
  comparisons between encoded datetimes agree with Python's.
  `datetime.min = datetime(1, 1, 1)` encodes to `dtMin`.
* JSON integers (`ms_played`) are `Int`; nullable JSON strings/booleans are
  `Option String` / `Option Bool` (Python `None` is `none`); Python
  truthiness of an `Option Bool` holds exactly for `some true`.
* Python exceptions are the `.error` branch of `Except PyErr`; a run that
  raises produces no result.
* Python dicts keep insertion order, so `parse_json`'s result is an
  association list in insertion order and `filter_songs` consumes the
  dict's values as a `List Track` in that order.
-/

/-- Monotone encoding of a `datetime`'s (year, month, day, hour, minute,
second) fields into one natural number: strictly monotone with respect to
lexicographic field order whenever day < 32, month < 13, hour < 24,
minute < 60 and second < 60, which holds of every valid datetime. -/
def encodeDT (y mo d h mi s : Nat) : Nat :=
  s + 60 * (mi + 60 * (h + 24 * (d + 32 * (mo + 13 * y))))

/-- Encoding of Python `datetime.min = datetime(1, 1, 1, 0, 0, 0)`, the
default for `filter_songs`'s `after` parameter. -/
def dtMin : Nat := encodeDT 1 1 1 0 0 0

/-- Python exceptions that the embedded code can raise: `KeyError` from a
dict lookup of a missing key (line 111/112 of the source reads
`song['start-reason']` on the track dict, which has no such key), and
`ValueError` from `datetime.strptime` on a malformed timestamp string. -/
inductive PyErr : Type where
  | keyError : String → PyErr
  | valueError : String → PyErr
deriving DecidableEq, Repr

deriving instance DecidableEq for Except

/-- One listen record as built by `parse_json` (source lines 47-57): the
dict keys `ts`, `time-played`, `start-reason`, `end-reason`, `shuffle`,
`skipped`, `offline`, `incognito`, `platform`. -/
structure Listen : Type where
  ts : Nat
  timePlayed : Int
  startReason : Option String
  endReason : Option String
  shuffle : Option Bool
  skipped : Option Bool
  offline : Option Bool
  incognito : Option Bool
  platform : Option String
deriving DecidableEq, Repr

/-- One track record as built by `parse_json` (source lines 38-44): the
dict keys `title`, `artist`, `album`, `uri`, `listens`. -/
structure Track : Type where
  title : Option String
  artist : Option String
  album : Option String
  uri : Option String
  listens : List Listen
deriving DecidableEq, Repr

/-- The per-track summary built by `filter_songs` (source lines 84-94):
identity fields copied from the track plus the kept listen durations
(`time-played`) and the skip tally (`skips`). -/
structure FilteredTrack : Type where
  title : Option String
  artist : Option String
  album : Option String
  uri : Option String
  timePlayed : List Int
  skips : Nat
deriving DecidableEq, Repr

/-- The keyword parameters of `filter_songs` (source lines 61-73) with the
defaults the source gives them, except `before`, whose Python default is
`datetime.now()` evaluated when the function is defined: it has no fixed
value, so it is a mandatory field here and `defaultConfig now` supplies the
clock reading. -/
structure FilterConfig : Type where
  ms_played : Int := 0
  before : Nat
  after : Nat := dtMin
  artist_include : List (Option String) := []
  artist_exclude : List (Option String) := []
  start_reasons : List String := []
  end_reasons : List String := []
  on_shuffle : Option Bool := none
  while_offline : Option Bool := none
  skipped : Option Bool := none
  while_private : Option Bool := none
deriving Repr

/-- The configuration obtained by leaving every keyword argument of
`filter_songs` at its default, where `now` is the `datetime.now()` value
captured as the default of `before`. -/
def defaultConfig (now : Nat) : FilterConfig :=
  { before := now }

/-- One iteration of the per-listen loop of `filter_songs` (source lines
101-125), acting on the summary built so far.  The checks run in source
order and the first failing check drops the listen (`continue`).  At lines
111-112 the source reads `song['start-reason']` / `song['end-reason']` on
the *track* dict, which only has the keys title/artist/album/uri/listens,
so whenever the corresponding reason list is non-empty the lookup itself
raises `KeyError` before the membership test can run (with the empty list,
Python's `and` short-circuits and the lookup is never evaluated). -/
def processListen (cfg : FilterConfig) (fs : FilteredTrack) (l : Listen) :
    Except PyErr FilteredTrack :=
  if l.timePlayed < cfg.ms_played then .ok fs
  else if cfg.before < l.ts then .ok fs
  else if l.ts < cfg.after then .ok fs
  else if cfg.start_reasons ≠ [] then .error (.keyError ("start-reason"))
  else if cfg.end_reasons ≠ [] then .error (.keyError ("end-reason"))
  else if l.shuffle ≠ cfg.on_shuffle ∧ cfg.on_shuffle ≠ none then .ok fs
  else if l.offline ≠ cfg.while_offline ∧ cfg.while_offline ≠ none then .ok fs
  else if l.incognito ≠ cfg.while_private ∧ cfg.while_private ≠ none then .ok fs
  else
    let fs' := if l.skipped = some true then { fs with skips := fs.skips + 1 } else fs
    if l.skipped ≠ cfg.skipped ∧ cfg.skipped ≠ none then .ok fs'
    else .ok { fs' with timePlayed := fs'.timePlayed ++ [l.timePlayed] }

/-- The summary `filtered_song` as first built at source lines 84-94:
identity copied from the track, no kept durations, zero skips. -/
def initialSummary (song : Track) : FilteredTrack :=
  { title := song.title, artist := song.artist, album := song.album,
    uri := song.uri, timePlayed := [], skips := 0 }

/-- The body of the per-track loop of `filter_songs` (source lines 79-128):
`none` when the track is dropped by the artist gate (lines 97-98, the
summary is built but never appended), otherwise the summary after folding
the per-listen loop over the track's listens. -/
def filterTrack (cfg : FilterConfig) (song : Track) :
    Except PyErr (Option FilteredTrack) :=
  if cfg.artist_include ≠ [] ∧ song.artist ∉ cfg.artist_include then .ok none
  else if song.artist ∈ cfg.artist_exclude then .ok none
  else do
    let fs ← song.listens.foldlM (processListen cfg) (initialSummary song)
    .ok (some fs)

/-- `filter_songs` (source lines 61-130) on the track dict's values in
insertion order: each track that survives the artist gate contributes
exactly one summary, in order; a raised exception aborts the whole call. -/
def filter_songs (cfg : FilterConfig) : List Track → Except PyErr (List FilteredTrack)
  | [] => .ok []
  | song :: rest => do
    let o ← filterTrack cfg song
    let tail ← filter_songs cfg rest
    match o with
    | none => .ok tail
    | some fs => .ok (fs :: tail)

/-- Sort key of the `plays` metric (source line 136): number of kept
durations. -/
def playsKey (s : FilteredTrack) : Nat := s.timePlayed.length

/-- Sort key of the `time` metric (source line 138): sum of kept
durations. -/
def timeKey (s : FilteredTrack) : Int := s.timePlayed.sum

/-- Sort key of the `skips` metric (source line 140): the skip tally. -/
def skipsKey (s : FilteredTrack) : Nat := s.skips

/-- Sort key of the `skip ratio` metric (source line 142): skips divided by
play count, and the sentinel `-1` when the play count is zero.  The Python
division is floating point; it is modelled by exact rational division,
which orders these ratios the same way for every realistically sized
count (and the sentinel comparison `-1 < r` is exact in both). -/
def skipRatioKey (s : FilteredTrack) : ℚ :=
  if s.timePlayed.length ≠ 0 then (s.skips : ℚ) / (s.timePlayed.length : ℚ) else -1

/-- Insert `x` into a descending-by-`key` list, after every element whose
key is strictly greater and before the first whose key is at most `key x`,
so an element earlier in the input never ends up after an equal-key element
later in the input. -/
def insertDesc {β : Type} [LinearOrder β] (key : FilteredTrack → β)
    (x : FilteredTrack) : List FilteredTrack → List FilteredTrack
  | [] => [x]
  | y :: ys => if key x < key y then y :: insertDesc key x ys else x :: y :: ys

/-- Python's `sorted(songs, key=key, reverse=True)`: the stable descending
sort by `key`.  CPython's sort is stable and `reverse=True` keeps equal-key
elements in their original order; a stable sort is extensionally unique
(see `sortByKeyDesc_perm`, `sortByKeyDesc_sorted`, `sortByKeyDesc_stable`),
so this insertion sort is the same function. -/
def sortByKeyDesc {β : Type} [LinearOrder β] (key : FilteredTrack → β)
    (l : List FilteredTrack) : List FilteredTrack :=
  l.foldr (insertDesc key) []

/-- `sort` (source lines 132-142): dispatch on the metric name.  A `match`
statement with no matching case falls through, so the Python function
returns `None` for an unknown metric name; that is the `none` branch. -/
def sort (sort_by : String) (songs : List FilteredTrack) :
    Option (List FilteredTrack) :=
  match sort_by with
  | "plays" => some (sortByKeyDesc playsKey songs)
  | "time" => some (sortByKeyDesc timeKey songs)
  | "skips" => some (sortByKeyDesc skipsKey songs)
  | "skip ratio" => some (sortByKeyDesc skipRatioKey songs)
  | _ => none

/-- One raw play-event record as consumed by `parse_json`: the JSON fields
read at source lines 33-56, with `None`-able fields as `Option`. -/
structure RawEvent : Type where
  ts : String
  ms_played : Int
  spotify_track_uri : Option String
  master_metadata_track_name : Option String
  master_metadata_album_artist_name : Option String
  master_metadata_album_album_name : Option String
  reason_start : Option String
  reason_end : Option String
  shuffle : Option Bool
  skipped : Option Bool
  offline : Option Bool
  incognito_mode : Option Bool
  platform : Option String
deriving DecidableEq, Repr

/-- Days in a month under the Gregorian rules `datetime` uses. -/
def daysInMonth (y mo : Nat) : Nat :=
  if mo = 2 then (if y % 4 = 0 ∧ (y % 100 ≠ 0 ∨ y % 400 = 0) then 29 else 28)
  else if mo = 4 ∨ mo = 6 ∨ mo = 9 ∨ mo = 11 then 30
  else 31

/-- Numeric value of a decimal digit character. -/
def digitVal (c : Char) : Nat := c.toNat - 48

/-- `datetime.strptime(s, '%Y-%m-%dT%H:%M:%SZ')` (source line 48), in the
fixed-width form `YYYY-MM-DDTHH:MM:SSZ` the export uses, returning the
`encodeDT` encoding; `none` models the `ValueError` strptime raises on a
string that does not match or encodes an invalid date.  (strptime would
also accept unpadded field widths, which the export never contains.) -/
def parseTs (s : String) : Option Nat :=
  match s.toList with
  | [y1, y2, y3, y4, c1, m1, m2, c2, d1, d2, c3, h1, h2, c4, i1, i2, c5, s1, s2, c6] =>
    if c1 = '-' ∧ c2 = '-' ∧ c3 = 'T' ∧ c4 = ':' ∧ c5 = ':' ∧ c6 = 'Z'
        ∧ y1.isDigit ∧ y2.isDigit ∧ y3.isDigit ∧ y4.isDigit
        ∧ m1.isDigit ∧ m2.isDigit ∧ d1.isDigit ∧ d2.isDigit
        ∧ h1.isDigit ∧ h2.isDigit ∧ i1.isDigit ∧ i2.isDigit
        ∧ s1.isDigit ∧ s2.isDigit then
      let y := 1000 * digitVal y1 + 100 * digitVal y2 + 10 * digitVal y3 + digitVal y4
      let mo := 10 * digitVal m1 + digitVal m2
      let d := 10 * digitVal d1 + digitVal d2
      let h := 10 * digitVal h1 + digitVal h2
      let mi := 10 * digitVal i1 + digitVal i2
      let sec := 10 * digitVal s1 + digitVal s2
      if 1 ≤ y ∧ 1 ≤ mo ∧ mo ≤ 12 ∧ 1 ≤ d ∧ d ≤ daysInMonth y mo
          ∧ h ≤ 23 ∧ mi ≤ 59 ∧ sec ≤ 59 then
        some (encodeDT y mo d h mi sec)
      else none
    else none
  | _ => none

/-- The listen dict appended at source lines 47-57, given the parsed
timestamp. -/
def listenOfEvent (e : RawEvent) (t : Nat) : Listen :=
  { ts := t, timePlayed := e.ms_played, startReason := e.reason_start,
    endReason := e.reason_end, shuffle := e.shuffle, skipped := e.skipped,
    offline := e.offline, incognito := e.incognito_mode, platform := e.platform }

/-- The track dict created at source lines 38-44 on first sighting of a
URI. -/
def trackOfEvent (e : RawEvent) (uri : String) : Track :=
  { title := e.master_metadata_track_name,
    artist := e.master_metadata_album_artist_name,
    album := e.master_metadata_album_album_name,
    uri := some uri, listens := [] }

/-- Whether the association list already has an entry for `uri`
(`song['spotify_track_uri'] not in all_songs`, source line 37). -/
def hasKey (m : List (String × Track)) (uri : String) : Bool :=
  m.any (fun p => p.1 = uri)

/-- Append a listen to the entry for `uri` (source line 47), leaving keys
and order unchanged. -/
def appendListen (m : List (String × Track)) (uri : String) (l : Listen) :
    List (String × Track) :=
  m.map (fun p =>
    if p.1 = uri then (p.1, { p.2 with listens := p.2.listens ++ [l] }) else p)

/-- One iteration of `parse_json`'s loop (source lines 30-57): a record
with a null URI is skipped; otherwise the listen dict is built —
`strptime` runs here and a malformed timestamp raises `ValueError`,
aborting the call (the partially built dict is local and discarded, so
whether the track entry was created before the raise is unobservable) —
a first-sighting URI gets a fresh track entry appended at the end of the
dict, and the listen is appended to the URI's entry. -/
def parseStep (m : List (String × Track)) (e : RawEvent) :
    Except PyErr (List (String × Track)) :=
  match e.spotify_track_uri with
  | none => .ok m
  | some uri =>
    match parseTs e.ts with
    | none => .error (.valueError e.ts)
    | some t =>
      let m1 := if hasKey m uri then m else m ++ [(uri, trackOfEvent e uri)]
      .ok (appendListen m1 uri (listenOfEvent e t))

/-- `parse_json`'s loop from an arbitrary accumulator. -/
def parseAux (m : List (String × Track)) :
    List RawEvent → Except PyErr (List (String × Track))
  | [] => .ok m
  | e :: rest => do
    let m' ← parseStep m e
    parseAux m' rest

/-- `parse_json` (source lines 26-59): the `all_songs` dict as an
association list in insertion order. -/
def parse_json (l : List RawEvent) : Except PyErr (List (String × Track)) :=
  parseAux [] l

/-- The per-track loop of `filter_songs` with the iterated-over store left
explicit: the loop walks the indices of the track store (the dict the
caller passed) reading `songs[uri]` and returns the store alongside the
summaries, so that what the call leaves in the caller's dict is part of
the result.  No branch of the source writes to `songs` or to any track,
and this embedding makes that checkable rather than implicit. -/
def filterLoopStore (cfg : FilterConfig) (store : List Track) :
    List Nat → List FilteredTrack →
    Except PyErr (List Track × List FilteredTrack)
  | [], acc => .ok (store, acc)
  | i :: rest, acc =>
    match store[i]? with
    | none => .error (.keyError ("uri"))
    | some song => do
      let o ← filterTrack cfg song
      filterLoopStore cfg store rest
        (match o with
         | none => acc
         | some fs => acc ++ [fs])

/-- `filter_songs` run against the explicit store: iterate every index of
the caller's track store in order, returning the store as the call leaves
it together with the summary list. -/
def filter_songs_run (cfg : FilterConfig) (store : List Track) :
    Except PyErr (List Track × List FilteredTrack) :=
  filterLoopStore cfg store (List.range store.length) []

/-- The pure value of one listen-loop iteration when both reason lists are
empty (the only case in which `processListen` cannot raise): same checks,
same order, minus the two unreachable `KeyError` branches. -/
def processListenP (cfg : FilterConfig) (fs : FilteredTrack) (l : Listen) :
    FilteredTrack :=
  if l.timePlayed < cfg.ms_played then fs
  else if cfg.before < l.ts then fs
  else if l.ts < cfg.after then fs
  else if l.shuffle ≠ cfg.on_shuffle ∧ cfg.on_shuffle ≠ none then fs
  else if l.offline ≠ cfg.while_offline ∧ cfg.while_offline ≠ none then fs
  else if l.incognito ≠ cfg.while_private ∧ cfg.while_private ≠ none then fs
  else
    let fs' := if l.skipped = some true then { fs with skips := fs.skips + 1 } else fs
    if l.skipped ≠ cfg.skipped ∧ cfg.skipped ≠ none then fs'
    else { fs' with timePlayed := fs'.timePlayed ++ [l.timePlayed] }

/-- A listen passes every check that stands before the skip-tally line
(source lines 104-117): listen time, time window, and the three boolean
context filters.  The reason checks (lines 111-112) are not part of this:
with empty reason lists they pass vacuously and with non-empty ones they
raise instead of passing. -/
def passesPreSkip (cfg : FilterConfig) (l : Listen) : Prop :=
  ¬ l.timePlayed < cfg.ms_played ∧ ¬ cfg.before < l.ts ∧ ¬ l.ts < cfg.after
    ∧ ¬ (l.shuffle ≠ cfg.on_shuffle ∧ cfg.on_shuffle ≠ none)
    ∧ ¬ (l.offline ≠ cfg.while_offline ∧ cfg.while_offline ≠ none)
    ∧ ¬ (l.incognito ≠ cfg.while_private ∧ cfg.while_private ≠ none)

instance (cfg : FilterConfig) (l : Listen) : Decidable (passesPreSkip cfg l) := by
  unfold passesPreSkip; infer_instance

/-- A listen is kept (its duration appended, source line 125): it passes
the pre-skip checks and the `skipped` option does not exclude it. -/
def keptListen (cfg : FilterConfig) (l : Listen) : Prop :=
  passesPreSkip cfg l ∧ ¬ (l.skipped ≠ cfg.skipped ∧ cfg.skipped ≠ none)

instance (cfg : FilterConfig) (l : Listen) : Decidable (keptListen cfg l) := by
  unfold keptListen; infer_instance

/-- A track passes the artist-level gate (source lines 97-98). -/
def gatePasses (cfg : FilterConfig) (t : Track) : Prop :=
  ¬ (cfg.artist_include ≠ [] ∧ t.artist ∉ cfg.artist_include)
    ∧ t.artist ∉ cfg.artist_exclude

instance (cfg : FilterConfig) (t : Track) : Decidable (gatePasses cfg t) := by
  unfold gatePasses; infer_instance

/-- The summary `filter_songs` builds for a gate-passing track, in closed
form: kept durations in listen order, and the skip tally over the listens
that reach the skip-flag line with their flag set. -/
def filteredOfTrack (cfg : FilterConfig) (t : Track) : FilteredTrack :=
  { title := t.title, artist := t.artist, album := t.album, uri := t.uri,
    timePlayed :=
      (t.listens.filter (fun l => decide (keptListen cfg l))).map
        (fun l => l.timePlayed),
    skips :=
      (t.listens.filter
        (fun l => decide (passesPreSkip cfg l ∧ l.skipped = some true))).length }

/-- The identity fields of a track. -/
def trackId (t : Track) :
    Option String × Option String × Option String × Option String :=
  (t.title, t.artist, t.album, t.uri)

/-- The identity fields of a summary. -/
def summaryId (s : FilteredTrack) :
    Option String × Option String × Option String × Option String :=
  (s.title, s.artist, s.album, s.uri)

/-- A listen with the given timestamp, duration and skip flag; the other
fields are arbitrary fixed values. -/
def mkListen (ts : Nat) (tp : Int) (sk : Option Bool) : Listen :=
  { ts := ts, timePlayed := tp, startReason := some "trackdone",
    endReason := some "endplay", shuffle := some false, skipped := sk,
    offline := some false, incognito := some false, platform := some "web" }

/-- A track by the given artist with the given listens. -/
def mkTrack (title artist : String) (ls : List Listen) : Track :=
  { title := some title, artist := some artist, album := some "album",
    uri := some title, listens := ls }

/-- A track holding exactly one listen. -/
def singleTrack (l : Listen) : Track :=
  mkTrack "song" "artist" [l]

/-- A fixed clock reading standing for the `datetime.now()` captured as the
default of `before`: late enough that the example listens fall inside the
default window. -/
def exNow : Nat := dtMin + 1000

/-- A 40000 ms listen flagged skipped. -/
def exL40 : Listen := mkListen (dtMin + 100) 40000 (some true)

/-- A 10000 ms listen not flagged skipped. -/
def exL10 : Listen := mkListen (dtMin + 200) 10000 (some false)

/-- The two-listen track of the end-to-end example. -/
def exTrackC5 : Track := mkTrack "song" "artist" [exL40, exL10]

/-- Filtering with a 30000 ms minimum-listen threshold, everything else at
its default. -/
def exCfgMin30 : FilterConfig := { defaultConfig exNow with ms_played := 30000 }

/-- Filtering with a non-empty start-reason set, everything else at its
default. -/
def exCfgReasons : FilterConfig :=
  { defaultConfig exNow with start_reasons := ["trackdone"] }

/-- A short listen timestamped one second after `datetime.min`. -/
def exLEarly : Listen := mkListen (dtMin + 1) 5 (some false)

/-- A track holding only `exLEarly`. -/
def exTrackEarly : Track := singleTrack exLEarly

/-- Filtering restricted to unskipped listens, everything else at its
default. -/
def exCfgSkipFalse : FilterConfig :=
  { defaultConfig exNow with skipped := some false }

/-- A track whose single listen is short (10000 ms) and flagged skipped. -/
def exTrackSkip : Track := singleTrack (mkListen (dtMin + 100) 10000 (some true))

/-- A track whose single listen is long (40000 ms) and flagged skipped. -/
def exTrackSkip40 : Track := singleTrack (mkListen (dtMin + 100) 40000 (some true))

/-- A track by artist X. -/
def exTrackX : Track := mkTrack "x1" "X" [exL40]

/-- A track by artist Y. -/
def exTrackY : Track := mkTrack "y1" "Y" [exL40]

/-- Filtering with the artist allow-list {X}, everything else at its
default. -/
def exCfgIncludeX : FilterConfig :=
  { defaultConfig exNow with artist_include := [some "X"] }

/-- A summary with the given kept-play count and skip tally. -/
def exFT (u : String) (plays tally : Nat) : FilteredTrack :=
  { title := some u, artist := none, album := none, uri := some u,
    timePlayed := List.replicate plays 1000, skips := tally }

/-- A raw event with the given URI and timestamp string; the other fields
are arbitrary fixed values. -/
def exEvent (uri : Option String) (ts : String) : RawEvent :=
  { ts := ts, ms_played := 30000, spotify_track_uri := uri,
    master_metadata_track_name := some "t",
    master_metadata_album_artist_name := some "a",
    master_metadata_album_album_name := some "al",
    reason_start := some "clickrow", reason_end := some "trackdone",
    shuffle := some false, skipped := some false, offline := some false,
    incognito_mode := some false, platform := some "web" }

/-- The fixed timestamp string of the parsing examples. -/
def exTs : String := "2023-01-05T10:30:00Z"

/-- The encoding of the parsed `exTs`. -/
def exT : Nat := encodeDT 2023 1 5 10 30 0

/-- The listen every `exEvent` parses to. -/
def exListenParsed : Listen :=
  { ts := exT, timePlayed := 30000, startReason := some "clickrow",
    endReason := some "trackdone", shuffle := some false,
    skipped := some false, offline := some false, incognito := some false,
    platform := some "web" }

/-- The track record `parse_json` builds for URI `u` from `exEvent`s, with
`n` listens. -/
def exParsedTrack (u : String) (n : Nat) : Track :=
  { title := some "t", artist := some "a", album := some "al",
    uri := some u, listens := List.replicate n exListenParsed }

/-- Four raw events: two plays of u1, one podcast (null URI), one play of
u2. -/
def exEvents : List RawEvent :=
  [exEvent (some "u1") exTs, exEvent none exTs,
   exEvent (some "u1") exTs, exEvent (some "u2") exTs]

/-- The aggregation of `exEvents`. -/
def exParsed : List (String × Track) :=
  [("u1", exParsedTrack "u1" 2), ("u2", exParsedTrack "u2" 1)]

theorem insertDesc_perm {β : Type} [LinearOrder β] (key : FilteredTrack → β)
    (x : FilteredTrack) (l : List FilteredTrack) :
    (insertDesc key x l).Perm (x :: l) := by
  induction l with
  | nil => exact .refl _
  | cons y ys ih =>
    unfold insertDesc
    split
    · exact (ih.cons y).trans (List.Perm.swap x y ys)
    · exact .refl _

theorem insertDesc_pairwise {β : Type} [LinearOrder β] (key : FilteredTrack → β)
    (x : FilteredTrack) (l : List FilteredTrack)
    (h : l.Pairwise (fun a b => key b ≤ key a)) :
    (insertDesc key x l).Pairwise (fun a b => key b ≤ key a) := by
  induction l with
  | nil => simp [insertDesc]
  | cons y ys ih =>
    rcases List.pairwise_cons.mp h with ⟨hy, hys⟩
    unfold insertDesc
    split
    case isTrue hlt =>
      refine List.pairwise_cons.mpr ⟨?_, ih hys⟩
      intro z hz
      rcases List.mem_cons.mp ((insertDesc_perm key x ys).mem_iff.mp hz) with rfl | hz'
      · exact le_of_lt hlt
      · exact hy z hz'
    case isFalse hnlt =>
      refine List.pairwise_cons.mpr ⟨?_, h⟩
      intro z hz
      rcases List.mem_cons.mp hz with rfl | hz'
      · exact le_of_not_lt hnlt
      · exact le_trans (hy z hz') (le_of_not_lt hnlt)

theorem insertDesc_filter {β : Type} [LinearOrder β] (key : FilteredTrack → β)
    (x : FilteredTrack) (l : List FilteredTrack) (k : β) :
    (insertDesc key x l).filter (fun s => decide (key s = k)) =
      if key x = k then x :: l.filter (fun s => decide (key s = k))
      else l.filter (fun s => decide (key s = k)) := by
  induction l with
  | nil => by_cases h : key x = k <;> simp [insertDesc, h]
  | cons y ys ih =>
    unfold insertDesc
    split
    case isTrue hlt =>
      by_cases hy : key y = k
      · have hx : key x ≠ k := fun hxe => absurd hlt (by rw [hxe, hy]; exact lt_irrefl k)
        simp [List.filter_cons, hy, hx, ih]
      · simp [List.filter_cons, hy, ih]
    case isFalse hnlt =>
      by_cases hx : key x = k <;> simp [List.filter_cons, hx]

theorem sortByKeyDesc_perm {β : Type} [LinearOrder β] (key : FilteredTrack → β)
    (l : List FilteredTrack) : (sortByKeyDesc key l).Perm l := by
  induction l with
  | nil => exact .refl _
  | cons x xs ih => exact (insertDesc_perm key x (sortByKeyDesc key xs)).trans (ih.cons x)

theorem sortByKeyDesc_sorted {β : Type} [LinearOrder β] (key : FilteredTrack → β)
    (l : List FilteredTrack) :
    (sortByKeyDesc key l).Pairwise (fun a b => key b ≤ key a) := by
  induction l with
  | nil => simp [sortByKeyDesc]
  | cons x xs ih => exact insertDesc_pairwise key x (sortByKeyDesc key xs) ih

theorem sortByKeyDesc_stable {β : Type} [LinearOrder β] (key : FilteredTrack → β)
    (l : List FilteredTrack) (k : β) :
    (sortByKeyDesc key l).filter (fun s => decide (key s = k)) =
      l.filter (fun s => decide (key s = k)) := by
  induction l with
  | nil => rfl
  | cons x xs ih =>
    show (insertDesc key x (sortByKeyDesc key xs)).filter _ = _
    rw [insertDesc_filter, ih]
    by_cases hx : key x = k <;> simp [List.filter_cons, hx]

theorem processListen_eq_ok (cfg : FilterConfig) (h1 : cfg.start_reasons = [])
    (h2 : cfg.end_reasons = []) (fs : FilteredTrack) (l : Listen) :
    processListen cfg fs l = .ok (processListenP cfg fs l) := by
  unfold processListen processListenP
  simp only [h1, h2, ne_eq, not_true_eq_false, if_false]
  split_ifs <;> rfl

theorem foldlM_processListen (cfg : FilterConfig) (h1 : cfg.start_reasons = [])
    (h2 : cfg.end_reasons = []) (ls : List Listen) (fs : FilteredTrack) :
    ls.foldlM (processListen cfg) fs = .ok (ls.foldl (processListenP cfg) fs) := by
  induction ls generalizing fs with
  | nil => rfl
  | cons l ls ih =>
    rw [List.foldlM_cons, processListen_eq_ok cfg h1 h2]
    exact ih _

theorem processListenP_eq (cfg : FilterConfig) (fs : FilteredTrack) (l : Listen) :
    processListenP cfg fs l =
      { fs with
        timePlayed := fs.timePlayed ++ (if keptListen cfg l then [l.timePlayed] else []),
        skips := fs.skips +
          (if passesPreSkip cfg l ∧ l.skipped = some true then 1 else 0) } := by
  unfold processListenP keptListen passesPreSkip
  split_ifs <;> simp_all

theorem foldl_processListenP (cfg : FilterConfig) (ls : List Listen) (fs : FilteredTrack) :
    ls.foldl (processListenP cfg) fs =
      { fs with
        timePlayed := fs.timePlayed ++
          (ls.filter (fun l => decide (keptListen cfg l))).map (fun l => l.timePlayed),
        skips := fs.skips +
          (ls.filter
            (fun l => decide (passesPreSkip cfg l ∧ l.skipped = some true))).length } := by
  induction ls generalizing fs with
  | nil => simp
  | cons l ls ih =>
    rw [List.foldl_cons, processListenP_eq, ih]
    by_cases hk : keptListen cfg l <;>
      by_cases hs : passesPreSkip cfg l ∧ l.skipped = some true <;>
        simp [List.filter_cons, hk, hs, Nat.add_assoc, Nat.add_comm]

theorem except_bind_ok {α β : Type} (a : α) (f : α → Except PyErr β) :
    (Except.ok a >>= f) = f a := rfl

theorem filterTrack_eq_ok (cfg : FilterConfig) (h1 : cfg.start_reasons = [])
    (h2 : cfg.end_reasons = []) (t : Track) :
    filterTrack cfg t =
      .ok (if gatePasses cfg t then some (filteredOfTrack cfg t) else none) := by
  unfold filterTrack gatePasses
  by_cases g1 : cfg.artist_include ≠ [] ∧ t.artist ∉ cfg.artist_include
  · simp [g1]
  · by_cases g2 : t.artist ∈ cfg.artist_exclude
    · simp [g1, g2]
    · rw [if_neg g1, if_neg g2, foldlM_processListen cfg h1 h2, except_bind_ok,
        foldl_processListenP, if_pos (And.intro g1 g2)]
      simp [initialSummary, filteredOfTrack]

theorem filter_songs_eq_ok (cfg : FilterConfig) (h1 : cfg.start_reasons = [])
    (h2 : cfg.end_reasons = []) (ts : List Track) :
    filter_songs cfg ts =
      .ok ((ts.filter (fun t => decide (gatePasses cfg t))).map (filteredOfTrack cfg)) := by
  induction ts with
  | nil => rfl
  | cons t ts ih =>
    show (do
        let o ← filterTrack cfg t
        let tail ← filter_songs cfg ts
        match o with
        | none => Except.ok tail
        | some fs => Except.ok (fs :: tail)) = _
    rw [filterTrack_eq_ok cfg h1 h2, except_bind_ok, ih, except_bind_ok]
    by_cases hg : gatePasses cfg t <;> simp [List.filter_cons, hg]

theorem except_bind_error {α β : Type} (e : PyErr) (f : α → Except PyErr β) :
    ((Except.error e : Except PyErr α) >>= f) = Except.error e := rfl

set_option maxHeartbeats 1000000 in
theorem processListen_ok_id (cfg : FilterConfig) (fs : FilteredTrack) (l : Listen)
    (fs2 : FilteredTrack) (h : processListen cfg fs l = .ok fs2) :
    summaryId fs2 = summaryId fs := by
  unfold processListen at h
  split_ifs at h
  all_goals (cases h; rfl)

theorem foldlM_processListen_ok_id (cfg : FilterConfig) (ls : List Listen) :
    ∀ fs fs2, ls.foldlM (processListen cfg) fs = .ok fs2 →
      summaryId fs2 = summaryId fs := by
  induction ls with
  | nil =>
    intro fs fs2 h
    injection h with h
    subst h
    rfl
  | cons l ls ih =>
    intro fs fs2 h
    rw [List.foldlM_cons] at h
    cases hpl : processListen cfg fs l with
    | error e => rw [hpl] at h; cases h
    | ok fs1 =>
      rw [hpl, except_bind_ok] at h
      exact (ih fs1 fs2 h).trans (processListen_ok_id cfg fs l fs1 hpl)

theorem filterTrack_ok_none_iff (cfg : FilterConfig) (t : Track) :
    filterTrack cfg t = .ok none ↔ ¬ gatePasses cfg t := by
  unfold filterTrack gatePasses
  by_cases g1 : cfg.artist_include ≠ [] ∧ t.artist ∉ cfg.artist_include
  · simp [g1]
  · by_cases g2 : t.artist ∈ cfg.artist_exclude
    · simp [g1, g2]
    · rw [if_neg g1, if_neg g2]
      cases hf : t.listens.foldlM (processListen cfg) (initialSummary t) with
      | error e => simp [except_bind_error, g1, g2]
      | ok fs => simp [except_bind_ok, g1, g2]

theorem filterTrack_ok_some (cfg : FilterConfig) (t : Track) (fs : FilteredTrack)
    (h : filterTrack cfg t = .ok (some fs)) :
    gatePasses cfg t ∧ summaryId fs = trackId t := by
  unfold filterTrack at h
  split_ifs at h with g1 g2
  · cases h
  · cases h
  · cases hf : t.listens.foldlM (processListen cfg) (initialSummary t) with
    | error e => rw [hf] at h; cases h
    | ok fs1 =>
      rw [hf, except_bind_ok] at h
      injection h with h
      injection h with h
      subst h
      refine ⟨⟨g1, g2⟩, ?_⟩
      exact (foldlM_processListen_ok_id cfg t.listens _ _ hf).trans rfl

theorem filter_songs_ok_ids (cfg : FilterConfig) (songs : List Track) :
    ∀ out, filter_songs cfg songs = .ok out →
      out.map summaryId =
        (songs.filter (fun t => decide (gatePasses cfg t))).map trackId := by
  induction songs with
  | nil =>
    intro out h
    injection h with h
    subst h
    rfl
  | cons t ts ih =>
    intro out h
    rw [show filter_songs cfg (t :: ts) = (do
        let o ← filterTrack cfg t
        let tail ← filter_songs cfg ts
        match o with
        | none => Except.ok tail
        | some fs => Except.ok (fs :: tail)) from rfl] at h
    cases hft : filterTrack cfg t with
    | error e => rw [hft] at h; cases h
    | ok o =>
      rw [hft, except_bind_ok] at h
      cases htl : filter_songs cfg ts with
      | error e => rw [htl] at h; cases h
      | ok tail =>
        rw [htl, except_bind_ok] at h
        cases o with
        | none =>
          injection h with h
          subst h
          have hg := (filterTrack_ok_none_iff cfg t).mp hft
          rw [List.filter_cons, if_neg (by simpa using hg)]
          exact ih tail htl
        | some fs =>
          injection h with h
          subst h
          rcases filterTrack_ok_some cfg t fs hft with ⟨hg, hid⟩
          rw [List.filter_cons, if_pos (by simpa using hg)]
          simp only [List.map_cons, hid]
          rw [ih tail htl]

theorem filterLoopStore_ok_store (cfg : FilterConfig) (store : List Track) :
    ∀ idxs acc s2 out, filterLoopStore cfg store idxs acc = .ok (s2, out) →
      s2 = store := by
  intro idxs
  induction idxs with
  | nil =>
    intro acc s2 out h
    injection h with h
    injection h with h1 h2
    exact h1.symm
  | cons i rest ih =>
    intro acc s2 out h
    unfold filterLoopStore at h
    cases hg : store[i]? with
    | none => rw [hg] at h; cases h
    | some song =>
      rw [hg] at h
      replace h : (do
          let o ← filterTrack cfg song
          filterLoopStore cfg store rest (match o with
            | none => acc
            | some fs => acc ++ [fs])) = Except.ok (s2, out) := h
      cases hft : filterTrack cfg song with
      | error e => rw [hft, except_bind_error] at h; cases h
      | ok o => rw [hft, except_bind_ok] at h; exact ih _ _ _ h

theorem filterLoopStore_range' (cfg : FilterConfig) (store : List Track) :
    ∀ k i acc, i + k = store.length →
      filterLoopStore cfg store (List.range' i k) acc =
        (filter_songs cfg (store.drop i)).map (fun tail => (store, acc ++ tail)) := by
  intro k
  induction k with
  | zero =>
    intro i acc h
    rw [List.drop_eq_nil_of_le (by omega)]
    show Except.ok (store, acc) = Except.ok (store, acc ++ [])
    rw [List.append_nil]
  | succ k ih =>
    intro i acc h
    have hi : i < store.length := by omega
    rw [List.range'_succ]
    show (match store[i]? with
      | none => (Except.error (.keyError ("uri")) : Except PyErr (List Track × List FilteredTrack))
      | some song => do
          let o ← filterTrack cfg song
          filterLoopStore cfg store (List.range' (i + 1) k) (match o with
            | none => acc
            | some fs => acc ++ [fs])) = _
    rw [List.getElem?_eq_getElem hi, List.drop_eq_getElem_cons hi]
    show (do
        let o ← filterTrack cfg store[i]
        filterLoopStore cfg store (List.range' (i + 1) k) (match o with
          | none => acc
          | some fs => acc ++ [fs])) = _
    cases hft : filterTrack cfg store[i] with
    | error e =>
      rw [except_bind_error]
      show _ = ((do
          let o ← filterTrack cfg store[i]
          let tail ← filter_songs cfg (store.drop (i + 1))
          match o with
          | none => Except.ok tail
          | some fs => Except.ok (fs :: tail)).map (fun tail => (store, acc ++ tail)))
      rw [hft, except_bind_error]
      rfl
    | ok o =>
      rw [except_bind_ok, ih (i + 1) _ (by omega)]
      show _ = ((do
          let o ← filterTrack cfg store[i]
          let tail ← filter_songs cfg (store.drop (i + 1))
          match o with
          | none => Except.ok tail
          | some fs => Except.ok (fs :: tail)).map (fun tail => (store, acc ++ tail)))
      rw [hft, except_bind_ok]
      cases htl : filter_songs cfg (store.drop (i + 1)) with
      | error e => rfl
      | ok tail =>
        cases o with
        | none => rfl
        | some fs =>
          show Except.ok (store, (acc ++ [fs]) ++ tail) = Except.ok (store, acc ++ fs :: tail)
          rw [List.append_assoc, List.singleton_append]

theorem filter_songs_run_eq (cfg : FilterConfig) (store : List Track) :
    filter_songs_run cfg store =
      (filter_songs cfg store).map (fun out => (store, out)) := by
  unfold filter_songs_run
  rw [List.range_eq_range',
    filterLoopStore_range' cfg store store.length 0 [] (by omega)]
  rfl

theorem appendListen_keys (m : List (String × Track)) (uri : String) (l : Listen) :
    (appendListen m uri l).map Prod.fst = m.map Prod.fst := by
  induction m with
  | nil => rfl
  | cons p ps ih =>
    have hc : appendListen (p :: ps) uri l =
        (if p.1 = uri then (p.1, { p.2 with listens := p.2.listens ++ [l] })
          else p) :: appendListen ps uri l := rfl
    rw [hc]
    by_cases h : p.1 = uri <;> simp [h, ih]

theorem hasKey_iff (m : List (String × Track)) (uri : String) :
    hasKey m uri = true ↔ uri ∈ m.map Prod.fst := by
  simp only [hasKey, List.any_eq_true, decide_eq_true_eq, List.mem_map]

theorem parseStep_keys (m : List (String × Track)) (e : RawEvent)
    (m2 : List (String × Track)) (h : parseStep m e = .ok m2) :
    ((m.map Prod.fst).Nodup → (m2.map Prod.fst).Nodup)
    ∧ ∀ k, k ∈ m2.map Prod.fst ↔
        (k ∈ m.map Prod.fst ∨ e.spotify_track_uri = some k) := by
  unfold parseStep at h
  cases hu : e.spotify_track_uri with
  | none =>
    rw [hu] at h
    replace h : Except.ok m = Except.ok m2 := h
    injection h with h
    subst h
    simp [hu]
  | some uri =>
    rw [hu] at h
    cases hts : parseTs e.ts with
    | none => rw [hts] at h; exact absurd h (by simp)
    | some t =>
      rw [hts] at h
      replace h : Except.ok (appendListen
          (if hasKey m uri = true then m else m ++ [(uri, trackOfEvent e uri)])
          uri (listenOfEvent e t)) = Except.ok m2 := h
      injection h with h
      subst h
      rw [appendListen_keys]
      by_cases hk : hasKey m uri = true
      · rw [if_pos hk]
        refine ⟨id, fun k => ?_⟩
        constructor
        · exact Or.inl
        · rintro (hm | he)
          · exact hm
          · injection he with he
            subst he
            exact (hasKey_iff m uri).mp hk
      · rw [if_neg hk, List.map_append]
        have hnk : uri ∉ m.map Prod.fst := fun hc =>
          hk ((hasKey_iff m uri).mpr hc)
        constructor
        · intro hnd
          simp [List.nodup_append, hnd, hnk]
        · intro k
          simp only [List.mem_append, List.map_cons, List.map_nil,
            List.mem_singleton, Option.some.injEq]
          constructor
          · rintro (hm | rfl)
            · exact Or.inl hm
            · exact Or.inr rfl
          · rintro (hm | rfl)
            · exact Or.inl hm
            · exact Or.inr rfl

theorem parseAux_keys (l : List RawEvent) :
    ∀ m m2, parseAux m l = .ok m2 → (m.map Prod.fst).Nodup →
      ((m2.map Prod.fst).Nodup
        ∧ ∀ k, k ∈ m2.map Prod.fst ↔
            (k ∈ m.map Prod.fst
              ∨ some k ∈ l.map (fun e => e.spotify_track_uri))) := by
  induction l with
  | nil =>
    intro m m2 h hnd
    injection h with h
    subst h
    exact ⟨hnd, by simp⟩
  | cons e es ih =>
    intro m m2 h hnd
    unfold parseAux at h
    cases hps : parseStep m e with
    | error er => rw [hps, except_bind_error] at h; cases h
    | ok m1 =>
      rw [hps, except_bind_ok] at h
      obtain ⟨hnd1, hmem1⟩ := parseStep_keys m e m1 hps
      obtain ⟨hnd2, hmem2⟩ := ih m1 m2 h (hnd1 hnd)
      refine ⟨hnd2, fun k => ?_⟩
      rw [hmem2 k, hmem1 k]
      simp only [List.map_cons, List.mem_cons]
      constructor
      · rintro ((hm | he) | hs)
        · exact Or.inl hm
        · exact Or.inr (Or.inl he.symm)
        · exact Or.inr (Or.inr hs)
      · rintro (hm | (he | hs))
        · exact Or.inl (Or.inl hm)
        · exact Or.inl (Or.inr he.symm)
        · exact Or.inr hs

theorem parseAux_skip_null (es : List RawEvent) :
    ∀ m, parseAux m (es.filter (fun e => e.spotify_track_uri.isSome)) =
      parseAux m es := by
  induction es with
  | nil => intro m; rfl
  | cons e es ih =>
    intro m
    cases hu : e.spotify_track_uri with
    | none =>
      rw [List.filter_cons, if_neg (by simp [hu]), ih]
      conv_rhs => rw [parseAux]
      rw [show parseStep m e = .ok m from by unfold parseStep; rw [hu],
        except_bind_ok]
    | some uri =>
      rw [List.filter_cons, if_pos (by simp [hu])]
      show parseAux m (e :: es.filter (fun e => e.spotify_track_uri.isSome)) = _
      rw [parseAux, parseAux]
      cases hps : parseStep m e with
      | error er => rw [except_bind_error, except_bind_error]
      | ok m1 => rw [except_bind_ok, except_bind_ok, ih]

/-- C5: for a track with exactly two listens — 40000 ms, skip flag true,
and 10000 ms, skip flag false, both inside the default time window —
filtering with a 30000 ms minimum-listen threshold and every other option
at its default yields one summary whose kept-duration sequence is exactly
[40000] and whose skip counter is exactly 1. -/
theorem C5_end_to_end :
    filter_songs exCfgMin30 [exTrackC5] =
      .ok [{ title := some "song", artist := some "artist",
             album := some "album", uri := some "song",
             timePlayed := [40000], skips := 1 }] := by
  rfl

/-- C2 counterexample: calling the ranker with the unknown metric selector
"bogus" on a non-empty input does not fail — the Python `match` statement
falls through and the function returns `None` (`none` here), so no
InvalidArgument-class error is raised, contrary to the claim. -/
theorem C2_unknown_metric_cex :
    sort ("bogus") [exFT ("a") 5 0] = none := by
  rfl

/-- C2 amended: for every input sequence, calling the ranker with a metric
selector other than the four defined ones silently returns `None` (no
sorted sequence and no error), because the `match` statement has no default
case and falls through. -/
theorem C2_unknown_metric_none (m : String) (songs : List FilteredTrack)
    (hm : m ∉ (["plays", "time", "skips", "skip ratio"] : List String)) :
    sort m songs = none := by
  unfold sort
  split <;> simp_all

/-- C2 witness: the amended theorem applied at the selector "bogus". -/
theorem C2_unknown_metric_none_witness :
    ("bogus" ∉ (["plays", "time", "skips", "skip ratio"] : List String))
    ∧ sort ("bogus") [] = none :=
  ⟨by decide, C2_unknown_metric_none ("bogus") [] (by decide)⟩

/-- C8: for every input sequence and each of the four defined metrics, the
ranker returns the sequence sorted descending by that metric's key, as a
permutation of the input, and stably: for every key value, the subsequence
of summaries having that key is unchanged; and on three summaries with
kept-play counts 5, 2, 2 ranking by plays returns them in that same order,
the two count-2 summaries keeping their relative order. -/
theorem C8_rank_sorted_stable (l : List FilteredTrack) :
    (sort ("plays") l = some (sortByKeyDesc playsKey l)
      ∧ (sortByKeyDesc playsKey l).Perm l
      ∧ (sortByKeyDesc playsKey l).Pairwise (fun a b => playsKey b ≤ playsKey a)
      ∧ ∀ k : Nat, (sortByKeyDesc playsKey l).filter (fun s => decide (playsKey s = k)) =
          l.filter (fun s => decide (playsKey s = k)))
    ∧ (sort ("time") l = some (sortByKeyDesc timeKey l)
      ∧ (sortByKeyDesc timeKey l).Perm l
      ∧ (sortByKeyDesc timeKey l).Pairwise (fun a b => timeKey b ≤ timeKey a)
      ∧ ∀ k : Int, (sortByKeyDesc timeKey l).filter (fun s => decide (timeKey s = k)) =
          l.filter (fun s => decide (timeKey s = k)))
    ∧ (sort ("skips") l = some (sortByKeyDesc skipsKey l)
      ∧ (sortByKeyDesc skipsKey l).Perm l
      ∧ (sortByKeyDesc skipsKey l).Pairwise (fun a b => skipsKey b ≤ skipsKey a)
      ∧ ∀ k : Nat, (sortByKeyDesc skipsKey l).filter (fun s => decide (skipsKey s = k)) =
          l.filter (fun s => decide (skipsKey s = k)))
    ∧ (sort ("skip ratio") l = some (sortByKeyDesc skipRatioKey l)
      ∧ (sortByKeyDesc skipRatioKey l).Perm l
      ∧ (sortByKeyDesc skipRatioKey l).Pairwise
          (fun a b => skipRatioKey b ≤ skipRatioKey a)
      ∧ ∀ k : ℚ, (sortByKeyDesc skipRatioKey l).filter
            (fun s => decide (skipRatioKey s = k)) =
          l.filter (fun s => decide (skipRatioKey s = k)))
    ∧ sort ("plays") [exFT ("a") 5 0, exFT ("b") 2 0, exFT ("c") 2 0] =
        some [exFT ("a") 5 0, exFT ("b") 2 0, exFT ("c") 2 0] := by
  refine ⟨⟨rfl, sortByKeyDesc_perm _ l, sortByKeyDesc_sorted _ l,
      fun k => sortByKeyDesc_stable _ l k⟩,
    ⟨rfl, sortByKeyDesc_perm _ l, sortByKeyDesc_sorted _ l,
      fun k => sortByKeyDesc_stable _ l k⟩,
    ⟨rfl, sortByKeyDesc_perm _ l, sortByKeyDesc_sorted _ l,
      fun k => sortByKeyDesc_stable _ l k⟩,
    ⟨rfl, sortByKeyDesc_perm _ l, sortByKeyDesc_sorted _ l,
      fun k => sortByKeyDesc_stable _ l k⟩, ?_⟩
  rfl

/-- C9: under the skip-ratio metric a summary with zero kept plays gets the
sentinel key −1, and after descending ranking every summary with at least
one kept play comes strictly before every zero-play summary: in the output,
once a zero-play summary appears, everything after it is also zero-play,
whatever the skip counters are. -/
theorem C9_skipratio_zero_plays_last (l : List FilteredTrack) :
    sort ("skip ratio") l = some (sortByKeyDesc skipRatioKey l)
    ∧ (∀ s : FilteredTrack, s.timePlayed.length = 0 → skipRatioKey s = -1)
    ∧ (sortByKeyDesc skipRatioKey l).Pairwise
        (fun a b => a.timePlayed.length = 0 → b.timePlayed.length = 0) := by
  refine ⟨rfl, ?_, ?_⟩
  · intro s hs
    simp [skipRatioKey, hs]
  · refine (sortByKeyDesc_sorted skipRatioKey l).imp ?_
    intro a b hle ha
    by_contra hb
    have hka : skipRatioKey a = -1 := by simp [skipRatioKey, ha]
    have hkb : (0 : ℚ) ≤ skipRatioKey b := by
      rw [skipRatioKey, if_pos hb]
      exact div_nonneg (Nat.cast_nonneg _) (Nat.cast_nonneg _)
    rw [hka] at hle
    linarith

/-- C6: whenever `filter_songs` returns an output, the summaries in it
correspond one-to-one and in order to the tracks that pass the artist-level
gate — a track excluded by the gate (allow-list non-empty and artist not in
it, or artist in the deny-list) contributes no summary at all, and every
gate-passing track contributes exactly one summary carrying its identity
fields, even when all of its listens are excluded (its kept-duration
sequence is then empty but the summary is still present). -/
theorem C6_artist_gate (cfg : FilterConfig) (songs : List Track)
    (out : List FilteredTrack) (h : filter_songs cfg songs = .ok out) :
    out.map summaryId =
      (songs.filter (fun t => decide (gatePasses cfg t))).map trackId :=
  filter_songs_ok_ids cfg songs out h

/-- C6 witness: with the allow-list {X} over one X track and one Y track,
filtering keeps exactly the X track's summary; the theorem applied there
says its identity line matches the gate-passing tracks. -/
theorem C6_artist_gate_witness :
    filter_songs exCfgIncludeX [exTrackX, exTrackY] =
      .ok [filteredOfTrack exCfgIncludeX exTrackX]
    ∧ [filteredOfTrack exCfgIncludeX exTrackX].map summaryId =
        ([exTrackX, exTrackY].filter
          (fun t => decide (gatePasses exCfgIncludeX t))).map trackId :=
  ⟨by rfl, C6_artist_gate exCfgIncludeX [exTrackX, exTrackY]
    [filteredOfTrack exCfgIncludeX exTrackX] (by rfl)⟩

/-- C10: `filter_songs` does not modify its input: running the per-track
loop with the caller's track store explicit returns the store exactly as it
was — every track, with its identity fields and its full ordered listen
sequence, unchanged — alongside the same freshly built summaries that the
value-level `filter_songs` computes from the input. -/
theorem C10_filter_frame (cfg : FilterConfig) (store s2 : List Track)
    (out : List FilteredTrack)
    (h : filter_songs_run cfg store = .ok (s2, out)) :
    s2 = store ∧ filter_songs cfg store = .ok out := by
  rw [filter_songs_run_eq] at h
  cases hf : filter_songs cfg store with
  | error e => rw [hf] at h; cases h
  | ok l =>
    rw [hf] at h
    replace h : Except.ok (store, l) = Except.ok (s2, out) := h
    injection h with h
    injection h with h1 h2
    exact ⟨h1.symm, by rw [h2]⟩

/-- C10 witness: the theorem applied to a concrete run over one two-listen
track at the default configuration. -/
theorem C10_filter_frame_witness :
    filter_songs_run (defaultConfig exNow) [exTrackC5] =
      .ok ([exTrackC5],
        [{ title := some "song", artist := some "artist",
           album := some "album", uri := some "song",
           timePlayed := [40000, 10000], skips := 1 }])
    ∧ ([exTrackC5] = [exTrackC5]
      ∧ filter_songs (defaultConfig exNow) [exTrackC5] =
          .ok [{ title := some "song", artist := some "artist",
                 album := some "album", uri := some "song",
                 timePlayed := [40000, 10000], skips := 1 }]) :=
  ⟨by rfl, C10_filter_frame (defaultConfig exNow) [exTrackC5] [exTrackC5] _ (by rfl)⟩

/-- C1 counterexample: with a non-empty `start_reasons` set and a track
whose first listen passes the earlier checks, `filter_songs` does not
complete: line 111 reads `song['start-reason']` on the track dict, which
has no such key, so the call raises `KeyError` instead of comparing the
reason against the set — filtering is not total as claimed. -/
theorem C1_reasons_keyerror_cex :
    filter_songs exCfgReasons [exTrackC5] =
      .error (.keyError ("start-reason")) := by
  rfl

/-- C1 amended: filtering is total for every track mapping and every
configuration whose `startReasons` and `endReasons` are both empty (as in
every call the program itself makes), and then returns exactly one summary
per gate-passing track; when either reason set is non-empty, the check
reads a start/end-reason field off the track record, which has none, so
the first listen that reaches the check aborts the call with a `KeyError`
rather than comparing the track's reason with the set. -/
theorem C1_total_when_reasons_empty (cfg : FilterConfig) (songs : List Track)
    (h1 : cfg.start_reasons = []) (h2 : cfg.end_reasons = []) :
    filter_songs cfg songs =
      .ok ((songs.filter (fun t => decide (gatePasses cfg t))).map
        (filteredOfTrack cfg)) :=
  filter_songs_eq_ok cfg h1 h2 songs

/-- C1 witness: the amended theorem applied at the default configuration
over one track. -/
theorem C1_total_when_reasons_empty_witness :
    (defaultConfig exNow).start_reasons = []
    ∧ filter_songs (defaultConfig exNow) [exTrackC5] =
        .ok (([exTrackC5].filter
          (fun t => decide (gatePasses (defaultConfig exNow) t))).map
            (filteredOfTrack (defaultConfig exNow))) :=
  ⟨rfl, C1_total_when_reasons_empty (defaultConfig exNow) [exTrackC5] rfl rfl⟩

/-- C4 counterexample: a gate-passing track whose single listen has the
skip flag set but only 10000 ms played, filtered with a 30000 ms threshold:
the listen fails the duration check before the skip-tally line, so the
output skip counter is 0 even though the track has one skipped listen —
the skip counter does not reflect all skipped listens of the track. -/
theorem C4_skip_tally_cex :
    filter_songs exCfgMin30 [exTrackSkip] =
      .ok [{ title := some "song", artist := some "artist",
             album := some "album", uri := some "song",
             timePlayed := [], skips := 0 }]
    ∧ (exTrackSkip.listens.filter
        (fun l => decide (l.skipped = some true))).length = 1 :=
  ⟨by rfl, by rfl⟩

/-- C4 amended: for a gate-passing track (with empty reason sets, so the
call returns), the skip counter counts exactly the skipped listens among
those that reach the skip-flag line — the listens passing the duration,
time-window and shuffle/offline/private checks — and it is incremented
before the `skipped` option applies: the counter is independent of the
`skipped` option, and it can exceed the kept play count, as the concrete
summary with one skipped listen kept zero times shows. -/
theorem C4_skip_tally_amended (cfg : FilterConfig) (t : Track)
    (h1 : cfg.start_reasons = []) (h2 : cfg.end_reasons = [])
    (hg : gatePasses cfg t) :
    (filterTrack cfg t = .ok (some (filteredOfTrack cfg t))
      ∧ (filteredOfTrack cfg t).skips =
          (t.listens.filter
            (fun l => decide (passesPreSkip cfg l ∧ l.skipped = some true))).length
      ∧ ∀ sk : Option Bool,
          (filteredOfTrack { cfg with skipped := sk } t).skips =
            (filteredOfTrack cfg t).skips)
    ∧ (filteredOfTrack exCfgSkipFalse exTrackSkip40).skips = 1
    ∧ playsKey (filteredOfTrack exCfgSkipFalse exTrackSkip40) = 0 := by
  refine ⟨⟨?_, rfl, fun sk => rfl⟩, by rfl, by rfl⟩
  rw [filterTrack_eq_ok cfg h1 h2, if_pos hg]

/-- C4 witness: the amended theorem applied to the two-listen example track
at the default configuration. -/
theorem C4_skip_tally_witness :
    gatePasses (defaultConfig exNow) exTrackC5
    ∧ ((filterTrack (defaultConfig exNow) exTrackC5 =
          .ok (some (filteredOfTrack (defaultConfig exNow) exTrackC5))
        ∧ (filteredOfTrack (defaultConfig exNow) exTrackC5).skips =
            (exTrackC5.listens.filter
              (fun l => decide (passesPreSkip (defaultConfig exNow) l
                ∧ l.skipped = some true))).length
        ∧ ∀ sk : Option Bool,
            (filteredOfTrack { defaultConfig exNow with skipped := sk }
              exTrackC5).skips =
              (filteredOfTrack (defaultConfig exNow) exTrackC5).skips)
      ∧ (filteredOfTrack exCfgSkipFalse exTrackSkip40).skips = 1
      ∧ playsKey (filteredOfTrack exCfgSkipFalse exTrackSkip40) = 0) :=
  ⟨by decide,
    C4_skip_tally_amended (defaultConfig exNow) exTrackC5 rfl rfl (by decide)⟩

/-- C3 counterexample: at an all-default configuration (clock reading
`dtMin`) a listen timestamped one second later is excluded by the
`before = datetime.now()` default — the default is the definition-time
clock, not an unbounded future — while raising `before` by one second
keeps the very same listen, showing the before-check alone excluded it. -/
theorem C3_default_window_cex :
    filter_songs (defaultConfig dtMin) [exTrackEarly] =
      .ok [{ title := some "song", artist := some "artist",
             album := some "album", uri := some "song",
             timePlayed := [], skips := 0 }]
    ∧ filter_songs { defaultConfig dtMin with before := dtMin + 1 }
        [exTrackEarly] =
      .ok [{ title := some "song", artist := some "artist",
             album := some "album", uri := some "song",
             timePlayed := [5], skips := 0 }] :=
  ⟨by rfl, by rfl⟩

/-- C3 amended: the time-window check passes inclusive bounds and excludes
a listen exactly when its timestamp is strictly after `before` or strictly
before `after`: on a one-listen track with every other option at its
default, the listen is kept iff `after ≤ ts ∧ ts ≤ before`.  The `after`
default (`datetime.min`) excludes no valid-timestamped listen, but the
`before` default is the `datetime.now()` reading captured at definition
time, not an unbounded future: at the all-default configuration the listen
is kept iff its timestamp is at most that clock reading, so a listen
timestamped later is excluded by the default window. -/
theorem C3_window_amended (b a now : Nat) (l : Listen)
    (hts : dtMin ≤ l.ts) (htp : 0 ≤ l.timePlayed) :
    (filter_songs { defaultConfig 0 with before := b, after := a }
        [singleTrack l] =
      .ok [{ title := some "song", artist := some "artist",
             album := some "album", uri := some "song",
             timePlayed := if a ≤ l.ts ∧ l.ts ≤ b then [l.timePlayed] else [],
             skips := if (a ≤ l.ts ∧ l.ts ≤ b) ∧ l.skipped = some true
               then 1 else 0 }])
    ∧ filter_songs (defaultConfig now) [singleTrack l] =
      .ok [{ title := some "song", artist := some "artist",
             album := some "album", uri := some "song",
             timePlayed := if l.ts ≤ now then [l.timePlayed] else [],
             skips := if l.ts ≤ now ∧ l.skipped = some true
               then 1 else 0 }] := by
  have key : ∀ cfg : FilterConfig, cfg.ms_played = 0 →
      cfg.artist_include = [] → cfg.artist_exclude = [] →
      cfg.start_reasons = [] → cfg.end_reasons = [] →
      cfg.on_shuffle = none → cfg.while_offline = none →
      cfg.skipped = none → cfg.while_private = none →
      filter_songs cfg [singleTrack l] =
        .ok [{ title := some "song", artist := some "artist",
               album := some "album", uri := some "song",
               timePlayed := if cfg.after ≤ l.ts ∧ l.ts ≤ cfg.before
                 then [l.timePlayed] else [],
               skips := if (cfg.after ≤ l.ts ∧ l.ts ≤ cfg.before)
                   ∧ l.skipped = some true then 1 else 0 }] := by
    intro cfg hms hinc hexc hsr her hsh hof hskcfg hpr
    have hpre : passesPreSkip cfg l ↔ (cfg.after ≤ l.ts ∧ l.ts ≤ cfg.before) := by
      unfold passesPreSkip
      rw [hms, hsh, hof, hpr]
      constructor
      · rintro ⟨hms2, hb, ha, hc1, hc2, hc3⟩
        exact ⟨not_lt.mp ha, not_lt.mp hb⟩
      · rintro ⟨ha2, hb2⟩
        exact ⟨not_lt.mpr htp, not_lt.mpr hb2, not_lt.mpr ha2,
          fun hc => hc.2 rfl, fun hc => hc.2 rfl, fun hc => hc.2 rfl⟩
    have hkept : keptListen cfg l ↔ (cfg.after ≤ l.ts ∧ l.ts ≤ cfg.before) := by
      unfold keptListen
      rw [hskcfg]
      constructor
      · rintro ⟨hp, hrest⟩
        exact hpre.mp hp
      · intro hwd
        exact ⟨hpre.mpr hwd, fun hc => hc.2 rfl⟩
    have hgate : gatePasses cfg (singleTrack l) := by
      unfold gatePasses
      rw [hinc, hexc]
      exact ⟨fun hc => hc.1 rfl, List.not_mem_nil _⟩
    have hgd : decide (gatePasses cfg (singleTrack l)) = true := decide_eq_true hgate
    rw [filter_songs_eq_ok cfg hsr her, List.filter_cons, hgd]
    by_cases hw : cfg.after ≤ l.ts ∧ l.ts ≤ cfg.before
    · by_cases hsk : l.skipped = some true
      · simp [filteredOfTrack, singleTrack, mkTrack, hpre, hkept, hw, hsk]
      · simp [filteredOfTrack, singleTrack, mkTrack, hpre, hkept, hw, hsk]
    · simp [filteredOfTrack, singleTrack, mkTrack, hpre, hkept, hw]
  constructor
  · exact key { defaultConfig 0 with before := b, after := a }
      rfl rfl rfl rfl rfl rfl rfl rfl rfl
  · have h2 := key (defaultConfig now) rfl rfl rfl rfl rfl rfl rfl rfl rfl
    simp only [defaultConfig] at h2
    have hiff : (dtMin ≤ l.ts ∧ l.ts ≤ now) ↔ l.ts ≤ now :=
      ⟨fun h => h.2, fun h => ⟨hts, h⟩⟩
    simp only [hiff] at h2
    exact h2

/-- C3 witness: the amended theorem applied to the one-second-past-minimum
listen with `before = after-default + 2` and clock reading `dtMin + 2`. -/
theorem C3_window_amended_witness :
    (dtMin ≤ exLEarly.ts ∧ (0 : Int) ≤ exLEarly.timePlayed)
    ∧ ((filter_songs { defaultConfig 0 with before := dtMin + 2, after := dtMin }
          [singleTrack exLEarly] =
        .ok [{ title := some "song", artist := some "artist",
               album := some "album", uri := some "song",
               timePlayed := if dtMin ≤ exLEarly.ts ∧ exLEarly.ts ≤ dtMin + 2
                 then [exLEarly.timePlayed] else [],
               skips := if (dtMin ≤ exLEarly.ts ∧ exLEarly.ts ≤ dtMin + 2)
                   ∧ exLEarly.skipped = some true then 1 else 0 }])
      ∧ filter_songs (defaultConfig (dtMin + 2)) [singleTrack exLEarly] =
        .ok [{ title := some "song", artist := some "artist",
               album := some "album", uri := some "song",
               timePlayed := if exLEarly.ts ≤ dtMin + 2
                 then [exLEarly.timePlayed] else [],
               skips := if exLEarly.ts ≤ dtMin + 2
                   ∧ exLEarly.skipped = some true then 1 else 0 }]) :=
  ⟨⟨by decide, by decide⟩,
    C3_window_amended (dtMin + 2) dtMin (dtMin + 2) exLEarly (by decide) (by decide)⟩

/-- C7: whenever `parse_json` returns, its keys are exactly the distinct
non-null track identifiers of the input, without repetition — so the size
of the aggregation equals the number of distinct non-null identifiers —
and the records with a null identifier contribute nothing: dropping them
from the input leaves the result unchanged. -/
theorem C7_parse_grouping (l : List RawEvent) (m : List (String × Track))
    (h : parse_json l = .ok m) :
    (m.map Prod.fst).Nodup
    ∧ (∀ k : String, k ∈ m.map Prod.fst ↔
        some k ∈ l.map (fun e => e.spotify_track_uri))
    ∧ m.length = (l.filterMap (fun e => e.spotify_track_uri)).toFinset.card
    ∧ parse_json (l.filter (fun e => e.spotify_track_uri.isSome)) =
        parse_json l := by
  obtain ⟨hnd, hmem⟩ := parseAux_keys l [] m h (by simp)
  have hmem2 : ∀ k : String, k ∈ m.map Prod.fst ↔
      some k ∈ l.map (fun e => e.spotify_track_uri) := by
    intro k
    rw [hmem k]
    simp
  refine ⟨hnd, hmem2, ?_, parseAux_skip_null l []⟩
  have h3 : (m.map Prod.fst).toFinset =
      (l.filterMap (fun e => e.spotify_track_uri)).toFinset := by
    ext x
    simp only [List.mem_toFinset, List.mem_filterMap]
    rw [hmem2 x]
    simp [List.mem_map]
  calc m.length = (m.map Prod.fst).length := (List.length_map _ _).symm
    _ = (m.map Prod.fst).toFinset.card := (List.toFinset_card_of_nodup hnd).symm
    _ = _ := by rw [h3]

/-- C7 witness: the theorem applied to four concrete events — two plays of
u1, one null-identifier record, one play of u2 — whose aggregation has
exactly the two keys u1 and u2. -/
theorem C7_parse_grouping_witness :
    parse_json exEvents = .ok exParsed
    ∧ ((exParsed.map Prod.fst).Nodup
      ∧ (∀ k : String, k ∈ exParsed.map Prod.fst ↔
          some k ∈ exEvents.map (fun e => e.spotify_track_uri))
      ∧ exParsed.length =
          (exEvents.filterMap (fun e => e.spotify_track_uri)).toFinset.card
      ∧ parse_json (exEvents.filter (fun e => e.spotify_track_uri.isSome)) =
          parse_json exEvents) :=
  ⟨by rfl, C7_parse_grouping exEvents exParsed (by rfl)⟩
